import Mathlib

/-!
Verification of the Sentinel test-coverage pipeline against its code.

Shallow embedding of the pipeline sources:
  * `src/agent/nodes.py` — aggregation fold, retry helper, false-positive
    verification, test-case generation node, loop routing;
  * `src/agent/graph.py` — the LangGraph state machine (nodes, conditional
    edge `has_more_scenarios`, loop wiring) and its dataclass `State`;
  * `src/agent/regex_extract.py` — regex requirement extraction with a
    persistent, hash-invalidated cache.

Language-model calls, vector search, and the filesystem are out of scope
collaborators; they are modelled as oracle functions supplied in an
environment record, exactly at the call boundaries the code uses.
The data shapes `TestCase`, `ScenarioResult`, `FalsePositive` follow the
TypedDict definitions in `graph.py` (the module `agent/models.py` used by
`nodes.py` is not in the source tree; its shapes are modelled from the
spec's data model, which coincides with the `graph.py` definitions).
-/

/-- `TestCase` TypedDict: `{id, description, present}`. -/
structure TestCase where
  id : String
  description : String
  present : Bool
deriving Repr, DecidableEq

/-- `ScenarioResult` TypedDict: `{scenario_name, scenario_path, test_cases}`. -/
structure ScenarioResult where
  scenario_name : String
  scenario_path : String
  test_cases : List TestCase
deriving Repr, DecidableEq

/-- `FalsePositive` record emitted by the verifier. -/
structure FalsePositive where
  scenario_name : String
  scenario_path : String
  test_case_id : String
  test_case_description : String
  reason : String
deriving Repr, DecidableEq

/-! ## Aggregation (`aggregate_test_cases`, nodes.py:518-540 / graph.py:460-490)

The Python code folds every `test_case` of every `scenario_result`, in
order, into an insertion-ordered dict keyed by `id`:
  * first occurrence of an id inserts `{id, description, present}`;
  * later occurrences only OR their `present` into the stored entry
    (`aggregated[tc_id]["present"] = aggregated[tc_id]["present"] or tc["present"]`).
An insertion-ordered dict keyed by id is modelled as a list of entries
with pairwise-distinct ids; dict update maps over the list at that id. -/

/-- One step of the aggregation fold: the body of the nested `for` loops. -/
def aggStep (acc : List TestCase) (tc : TestCase) : List TestCase :=
  if acc.any (fun a => a.id == tc.id) then
    acc.map (fun a =>
      if a.id == tc.id then { a with present := a.present || tc.present } else a)
  else
    acc ++ [{ id := tc.id, description := tc.description, present := tc.present }]

/-- The flattened, in-order stream of test cases the double loop visits. -/
def flatTCs (results : List ScenarioResult) : List TestCase :=
  (results.map (fun r => r.test_cases)).flatten

/-- `aggregate_test_cases`: fold every scenario's test cases into the dict,
returning `list(aggregated.values())` (insertion order). -/
def aggregate_test_cases (results : List ScenarioResult) : List TestCase :=
  (flatTCs results).foldl aggStep []

/-- OR of the `present` bits of every test case with the given id. -/
def orPresent (l : List TestCase) (k : String) : Bool :=
  l.any (fun t => t.id == k && t.present)

/-- Membership of an id in a test-case list. -/
def hasId (l : List TestCase) (k : String) : Bool :=
  l.any (fun t => t.id == k)

-- `find?` over a map whose function preserves the predicate's observation.
theorem find?_map_tc (f : TestCase → TestCase) (l : List TestCase) (p : TestCase → Bool)
    (hp : ∀ a, p (f a) = p a) :
    (l.map f).find? p = (l.find? p).map f := by
  induction l with
  | nil => rfl
  | cons a t ih =>
    simp only [List.map_cons, List.find?_cons, hp a]
    cases p a <;> simp [ih]

theorem find?_append_tc (l₁ l₂ : List TestCase) (p : TestCase → Bool) :
    (l₁ ++ l₂).find? p =
      match l₁.find? p with
      | some a => some a
      | none => l₂.find? p := by
  induction l₁ with
  | nil => rfl
  | cons a t ih =>
    simp only [List.cons_append, List.find?_cons]
    cases p a <;> simp [ih]

/-- Characterization of the fold's entry for id `k`, generalized over the
accumulator: an id already in `acc` keeps its entry with `present` OR-ed
with the stream's votes; a fresh id takes the first stream entry's id and
description and the OR of the stream's votes. -/
theorem foldl_aggStep_find? (l : List TestCase) :
    ∀ (acc : List TestCase) (k : String),
      (l.foldl aggStep acc).find? (fun e => e.id == k) =
        match acc.find? (fun e => e.id == k) with
        | some a => some { a with present := a.present || orPresent l k }
        | none =>
            (l.find? (fun t => t.id == k)).map
              (fun t => { id := t.id, description := t.description,
                          present := orPresent l k }) := by
  induction l with
  | nil =>
    intro acc k
    cases h : acc.find? (fun e => e.id == k) <;> simp [orPresent, h]
  | cons t l ih =>
    intro acc k
    have horp : orPresent (t :: l) k = ((t.id == k) && t.present || orPresent l k) := by
      simp [orPresent]
    rw [List.foldl_cons, ih, horp]
    by_cases htid : t.id = k
    · -- the head of the stream carries id k
      subst htid
      cases hacc : acc.find? (fun e => e.id == t.id) with
      | some a =>
        -- `aggStep acc t` takes the update branch (the id is present in acc)
        have hany : acc.any (fun a => a.id == t.id) = true := by
          rcases List.find?_some hacc with h
          have hmem := List.mem_of_find?_eq_some hacc
          exact List.any_eq_true.mpr ⟨a, hmem, h⟩
        have ha : a.id = t.id := by
          have := List.find?_some hacc
          simpa using this
        simp only [aggStep, hany, if_true]
        rw [find?_map_tc _ _ _ (by
          intro x
          by_cases hx : x.id = t.id <;> simp [hx])]
        rw [hacc]
        simp [ha, Bool.or_assoc]
      | none =>
        -- the id is absent from acc: append branch
        have hany : acc.any (fun a => a.id == t.id) = false := by
          cases h2 : acc.any (fun a => a.id == t.id) with
          | false => rfl
          | true =>
            rcases List.any_eq_true.mp h2 with ⟨a, hmem, hpa⟩
            have hs : (acc.find? (fun e => e.id == t.id)).isSome :=
              List.find?_isSome.mpr ⟨a, hmem, hpa⟩
            rw [hacc] at hs
            simp at hs
        simp only [aggStep, hany, Bool.false_eq_true, if_false]
        rw [find?_append_tc, hacc]
        simp
    · -- the head of the stream carries a different id: entry for k untouched
      have htid' : (t.id == k) = false := by simpa using htid
      by_cases hin : acc.any (fun a => a.id == t.id) = true
      · simp only [aggStep, hin, if_true]
        rw [find?_map_tc _ _ _ (by
          intro x
          by_cases hx : x.id = t.id
          · simp [hx, htid']
          · simp [hx])]
        cases hacc : acc.find? (fun e => e.id == k) with
        | some a =>
          have ha : a.id = k := by simpa using List.find?_some hacc
          have hane : ¬(a.id = t.id) := by
            rw [ha]
            exact fun h => htid h.symm
          simp [hane, htid']
        | none => simp [htid']
      · have hin' : acc.any (fun a => a.id == t.id) = false := by
          simpa using hin
        simp only [aggStep, hin', Bool.false_eq_true, if_false]
        rw [find?_append_tc]
        cases hacc : acc.find? (fun e => e.id == k) with
        | some a => simp [htid']
        | none => simp [htid']

theorem any_eq_find?_isSome (l : List TestCase) (p : TestCase → Bool) :
    l.any p = (l.find? p).isSome := by
  induction l with
  | nil => rfl
  | cons a t ih =>
    simp only [List.any_cons, List.find?_cons]
    cases h : p a <;> simp [ih]

theorem perm_any_tc {l₁ l₂ : List TestCase} (h : l₁.Perm l₂) (p : TestCase → Bool) :
    l₁.any p = l₂.any p := by
  induction h with
  | nil => rfl
  | cons a _ ih => simp [ih]
  | swap a b l =>
    simp only [List.any_cons]
    cases p a <;> cases p b <;> simp
  | trans _ _ ih₁ ih₂ => rw [ih₁, ih₂]

/-- Each id's multiplicity in the fold result: one when the id occurs in the
accumulator or the stream, zero otherwise (given the accumulator already has
that multiplicity discipline). -/
theorem foldl_aggStep_countP (l : List TestCase) :
    ∀ (acc : List TestCase) (k : String),
      acc.countP (fun e => e.id == k) = (if acc.any (fun e => e.id == k) then 1 else 0) →
      (l.foldl aggStep acc).countP (fun e => e.id == k) =
        if (acc.any (fun e => e.id == k) || l.any (fun t => t.id == k)) then 1 else 0 := by
  induction l with
  | nil =>
    intro acc k H
    simpa using H
  | cons t l ih =>
    intro acc k H
    rw [List.foldl_cons]
    by_cases hin : acc.any (fun a => a.id == t.id) = true
    · -- update branch: the map preserves ids, hence counts and membership
      have hstep : aggStep acc t = acc.map (fun a =>
          if a.id == t.id then { a with present := a.present || t.present } else a) := by
        simp [aggStep, hin]
      have hid : ∀ a : TestCase,
          ((if a.id == t.id then { a with present := a.present || t.present } else a).id == k)
            = (a.id == k) := by
        intro a
        by_cases hx : a.id = t.id <;> simp [hx]
      have hcount : (aggStep acc t).countP (fun e => e.id == k)
          = acc.countP (fun e => e.id == k) := by
        rw [hstep, List.countP_map]
        refine List.countP_congr fun a _ => ?_
        simp only [Function.comp_apply]
        rw [hid a]
      have hany : (aggStep acc t).any (fun e => e.id == k) = acc.any (fun e => e.id == k) := by
        rw [hstep, any_eq_find?_isSome, any_eq_find?_isSome, find?_map_tc _ _ _ hid]
        cases acc.find? (fun e => e.id == k) <;> rfl
      rw [ih (aggStep acc t) k (by rw [hcount, hany]; exact H), hany]
      by_cases htk : t.id = k
      · have : acc.any (fun e => e.id == k) = true := by
          subst htk
          exact hin
        simp [this]
      · have htk' : (t.id == k) = false := by simpa using htk
        simp [htk']
    · -- append branch: one fresh entry
      have hin' : acc.any (fun a => a.id == t.id) = false := by simpa using hin
      have hstep : aggStep acc t
          = acc ++ [{ id := t.id, description := t.description, present := t.present }] := by
        simp [aggStep, hin']
      by_cases htk : t.id = k
      · have hacck : acc.any (fun e => e.id == k) = false := by
          subst htk
          exact hin'
        have hacc0 : acc.countP (fun e => e.id == k) = 0 := by
          rw [H, hacck]
          simp
        have hcount : (aggStep acc t).countP (fun e => e.id == k) = 1 := by
          rw [hstep, List.countP_append, hacc0]
          simp [htk]
        have hany : (aggStep acc t).any (fun e => e.id == k) = true := by
          rw [hstep, List.any_append]
          simp [htk]
        rw [ih (aggStep acc t) k (by rw [hcount, hany]; simp), hany]
        simp [hacck, htk]
      · have htk' : (t.id == k) = false := by simpa using htk
        have hcount : (aggStep acc t).countP (fun e => e.id == k)
            = acc.countP (fun e => e.id == k) := by
          rw [hstep, List.countP_append]
          simp [htk']
        have hany : (aggStep acc t).any (fun e => e.id == k) = acc.any (fun e => e.id == k) := by
          rw [hstep, List.any_append]
          simp [htk']
        rw [ih (aggStep acc t) k (by rw [hcount, hany]; exact H), hany]
        simp [htk']

/-- A member satisfying a predicate counted exactly once is what `find?` returns. -/
theorem find?_eq_of_countP_one (p : TestCase → Bool) (l : List TestCase) (e : TestCase)
    (hmem : e ∈ l) (hpe : p e = true) (hcount : l.countP p = 1) :
    l.find? p = some e := by
  induction l with
  | nil => cases hmem
  | cons a t ih =>
    rw [List.countP_cons] at hcount
    cases hpa : p a with
    | true =>
      have ht0 : t.countP p = 0 := by
        simp only [hpa, eq_self_iff_true, if_true] at hcount
        omega
      have hnot : ∀ x ∈ t, ¬ p x = true := by
        intro x hx hpx
        have hlt : 0 < t.countP p := List.countP_pos_iff.mpr ⟨x, hx, hpx⟩
        omega
      have hea : e = a := by
        rcases List.mem_cons.mp hmem with h | h
        · exact h
        · exact absurd hpe (hnot e h)
      rw [List.find?_cons, hpa, hea]
    | false =>
      have hea : e ≠ a := fun h => by rw [h, hpa] at hpe; cases hpe
      have hmem' : e ∈ t := by
        rcases List.mem_cons.mp hmem with h | h
        · exact absurd h hea
        · exact h
      have hcount' : t.countP p = 1 := by
        simp only [hpa, Bool.false_eq_true, if_false] at hcount
        omega
      rw [List.find?_cons, hpa]
      exact ih hmem' hcount'

/-- C1. For every collection of scenario results, `aggregate_test_cases` has
exactly one entry per id that occurs in the flattened scenario results (and
none for other ids), and every entry's `present` bit is the logical OR of
the `present` bits of all test cases sharing its id across all scenario
results. It is a pure function of `scenario_results` by construction
(`aggregate_test_cases` is a Lean function of `results` alone). -/
theorem C1_aggregate_or_fold :
    ∀ (results : List ScenarioResult) (k : String),
      ((aggregate_test_cases results).countP (fun e => e.id == k)
          = if (flatTCs results).any (fun t => t.id == k) then 1 else 0)
      ∧ ∀ e ∈ aggregate_test_cases results,
          e.present = orPresent (flatTCs results) e.id := by
  intro results k
  constructor
  · have := foldl_aggStep_countP (flatTCs results) [] k (by simp)
    simpa [aggregate_test_cases] using this
  · intro e hmem
    have hcount := foldl_aggStep_countP (flatTCs results) [] e.id (by simp)
    simp only [List.any_nil, Bool.false_or, List.countP_nil] at hcount
    have hpe : (fun x : TestCase => x.id == e.id) e = true := by simp
    have hocc : (flatTCs results).any (fun t => t.id == e.id) = true := by
      cases hany : (flatTCs results).any (fun t => t.id == e.id) with
      | true => rfl
      | false =>
        rw [hany] at hcount
        simp only [Bool.false_eq_true, if_false] at hcount
        have hlt : 0 < ((flatTCs results).foldl aggStep []).countP (fun x => x.id == e.id) :=
          List.countP_pos_iff.mpr ⟨e, hmem, hpe⟩
        omega
    have hone : (aggregate_test_cases results).countP (fun x => x.id == e.id) = 1 := by
      rw [show aggregate_test_cases results = (flatTCs results).foldl aggStep [] from rfl,
        hcount, hocc]
      simp
    have hfind : (aggregate_test_cases results).find? (fun x => x.id == e.id) = some e :=
      find?_eq_of_countP_one _ _ _ hmem hpe hone
    have hchar := foldl_aggStep_find? (flatTCs results) [] e.id
    rw [show (flatTCs results).foldl aggStep [] = aggregate_test_cases results from rfl] at hchar
    rw [hfind] at hchar
    simp only [List.find?_nil] at hchar
    cases hfl : (flatTCs results).find? (fun t => t.id == e.id) with
    | none =>
      rw [hfl] at hchar
      cases hchar
    | some t =>
      rw [hfl] at hchar
      have h2 : e = { id := t.id, description := t.description, present := orPresent (flatTCs results) e.id } := by
        simpa using hchar
      simpa using congrArg TestCase.present h2

/-- Witness for C1 at a concrete input: two scenarios sharing id TC-1 with
present-bits false and true; the aggregated entry is unique and present. -/
theorem C1_aggregate_or_fold_witness :
    ((aggregate_test_cases
        [⟨"s1", "p1", [⟨"TC-1", "d", false⟩]⟩, ⟨"s2", "p2", [⟨"TC-1", "d", true⟩]⟩]).countP
          (fun e => e.id == "TC-1")
        = if (flatTCs
            [⟨"s1", "p1", [⟨"TC-1", "d", false⟩]⟩, ⟨"s2", "p2", [⟨"TC-1", "d", true⟩]⟩]).any
              (fun t => t.id == "TC-1") then 1 else 0)
    ∧ (⟨"TC-1", "d", true⟩ : TestCase).present
        = orPresent (flatTCs
            [⟨"s1", "p1", [⟨"TC-1", "d", false⟩]⟩, ⟨"s2", "p2", [⟨"TC-1", "d", true⟩]⟩]) "TC-1" := by
  refine ⟨(C1_aggregate_or_fold
      [⟨"s1", "p1", [⟨"TC-1", "d", false⟩]⟩, ⟨"s2", "p2", [⟨"TC-1", "d", true⟩]⟩] "TC-1").1, ?_⟩
  have h := (C1_aggregate_or_fold
      [⟨"s1", "p1", [⟨"TC-1", "d", false⟩]⟩, ⟨"s2", "p2", [⟨"TC-1", "d", true⟩]⟩] "TC-1").2
      ⟨"TC-1", "d", true⟩ (by decide)
  simpa using h

/-- C10. The description stored in the aggregated entry for an id is the
description of the first test case carrying that id in scenario-processing
order (the first scenario result that mentions the id): later occurrences
never overwrite it, because the fold only updates `present` for an id that
is already a key of the dict. Stated for every id `k`: the description
visible through the aggregated entry equals the description of the first
flattened occurrence (both sides are `none` when the id never occurs). -/
theorem C10_first_description_wins :
    ∀ (results : List ScenarioResult) (k : String),
      ((aggregate_test_cases results).find? (fun e => e.id == k)).map TestCase.description
        = ((flatTCs results).find? (fun t => t.id == k)).map TestCase.description := by
  intro results k
  have hchar := foldl_aggStep_find? (flatTCs results) [] k
  rw [show (flatTCs results).foldl aggStep [] = aggregate_test_cases results from rfl] at hchar
  rw [hchar]
  simp only [List.find?_nil]
  cases (flatTCs results).find? (fun t => t.id == k) <;> rfl

/-- C9. Aggregation is order-independent up to the set of (id, present)
pairs: for scenario-result lists that are permutations of each other, every
id occurs in one aggregation iff it occurs in the other, and the `present`
bit seen through the (unique, by C1) entry for each id is identical. -/
theorem C9_aggregate_perm_invariant :
    ∀ (r₁ r₂ : List ScenarioResult), r₁.Perm r₂ → ∀ k : String,
      hasId (aggregate_test_cases r₁) k = hasId (aggregate_test_cases r₂) k
      ∧ ((aggregate_test_cases r₁).find? (fun e => e.id == k)).map TestCase.present
        = ((aggregate_test_cases r₂).find? (fun e => e.id == k)).map TestCase.present := by
  intro r₁ r₂ hperm k
  have hflat : (flatTCs r₁).Perm (flatTCs r₂) := by
    unfold flatTCs
    exact (hperm.map _).flatten
  have hchar₁ := foldl_aggStep_find? (flatTCs r₁) [] k
  have hchar₂ := foldl_aggStep_find? (flatTCs r₂) [] k
  rw [show (flatTCs r₁).foldl aggStep [] = aggregate_test_cases r₁ from rfl] at hchar₁
  rw [show (flatTCs r₂).foldl aggStep [] = aggregate_test_cases r₂ from rfl] at hchar₂
  simp only [List.find?_nil] at hchar₁ hchar₂
  have hanyk : (flatTCs r₁).any (fun t => t.id == k) = (flatTCs r₂).any (fun t => t.id == k) :=
    perm_any_tc hflat _
  have horp : orPresent (flatTCs r₁) k = orPresent (flatTCs r₂) k :=
    perm_any_tc hflat _
  constructor
  · rw [hasId, hasId, any_eq_find?_isSome, any_eq_find?_isSome, hchar₁, hchar₂]
    rw [any_eq_find?_isSome, any_eq_find?_isSome] at hanyk
    cases h₁ : (flatTCs r₁).find? (fun t => t.id == k) with
    | none =>
      rw [h₁] at hanyk
      cases h₂ : (flatTCs r₂).find? (fun t => t.id == k) with
      | none => rfl
      | some u => rw [h₂] at hanyk; cases hanyk
    | some u =>
      rw [h₁] at hanyk
      cases h₂ : (flatTCs r₂).find? (fun t => t.id == k) with
      | none => rw [h₂] at hanyk; cases hanyk
      | some v => rfl
  · rw [hchar₁, hchar₂]
    rw [any_eq_find?_isSome, any_eq_find?_isSome] at hanyk
    cases h₁ : (flatTCs r₁).find? (fun t => t.id == k) with
    | none =>
      rw [h₁] at hanyk
      cases h₂ : (flatTCs r₂).find? (fun t => t.id == k) with
      | none => rfl
      | some u => rw [h₂] at hanyk; cases hanyk
    | some u =>
      rw [h₁] at hanyk
      cases h₂ : (flatTCs r₂).find? (fun t => t.id == k) with
      | none => rw [h₂] at hanyk; cases hanyk
      | some v =>
        simp only [Option.map_some']
        rw [horp]

/-- Witness for C9 at a concrete input: swapping two scenario results
leaves the id set and every present bit unchanged. -/
theorem C9_aggregate_perm_invariant_witness :
    hasId (aggregate_test_cases
        [⟨"s1", "p1", [⟨"TC-1", "d", true⟩]⟩, ⟨"s2", "p2", [⟨"TC-2", "d2", false⟩]⟩]) "TC-2"
      = hasId (aggregate_test_cases
        [⟨"s2", "p2", [⟨"TC-2", "d2", false⟩]⟩, ⟨"s1", "p1", [⟨"TC-1", "d", true⟩]⟩]) "TC-2"
    ∧ ((aggregate_test_cases
        [⟨"s1", "p1", [⟨"TC-1", "d", true⟩]⟩, ⟨"s2", "p2", [⟨"TC-2", "d2", false⟩]⟩]).find?
          (fun e => e.id == "TC-2")).map TestCase.present
      = ((aggregate_test_cases
        [⟨"s2", "p2", [⟨"TC-2", "d2", false⟩]⟩, ⟨"s1", "p1", [⟨"TC-1", "d", true⟩]⟩]).find?
          (fun e => e.id == "TC-2")).map TestCase.present :=
  C9_aggregate_perm_invariant
    [⟨"s1", "p1", [⟨"TC-1", "d", true⟩]⟩, ⟨"s2", "p2", [⟨"TC-2", "d2", false⟩]⟩]
    [⟨"s2", "p2", [⟨"TC-2", "d2", false⟩]⟩, ⟨"s1", "p1", [⟨"TC-1", "d", true⟩]⟩]
    (List.Perm.swap _ _ _) "TC-2"

/-! ## Retry executor (`_retry_api_call`, nodes.py:548-581)

Python:
```
for attempt in range(max_retries):
    try: return await api_call()
    except Exception as e:
        last_exception = e
        if "503" in str(e) or "Service unavailable" in str(e):
            if attempt < max_retries - 1:
                await asyncio.sleep(delay * (2**attempt)); continue
        raise
raise last_exception
```
The api call is modelled as an oracle giving the outcome of each attempt;
the executor records the attempts made and the sleep durations incurred.
`retryGo r attempt` mirrors the loop with `r` iterations left including the
current one; the guard `attempt < max_retries - 1` is `r != 0` after the
decrement. The `raise last_exception` after the loop is only reachable
with `max_retries = 0` (Python would raise `None` there). -/

/-- Outcome of one invocation of the wrapped api call. -/
inductive CallResult where
  | success (v : Nat)
  | err (msg : String)
deriving Repr, DecidableEq

/-- Python substring test `needle in hay` on code points. -/
def hasSubstr (hay needle : List Char) : Bool :=
  if needle.isPrefixOf hay then true
  else
    match hay with
    | [] => false
    | _ :: rest => hasSubstr rest needle

/-- `"503" in error_str or "Service unavailable" in error_str`. -/
def isTransientMsg (s : String) : Bool :=
  hasSubstr s.toList "503".toList || hasSubstr s.toList "Service unavailable".toList

instance : DecidableEq (Except String Nat) := fun a b =>
  match a, b with
  | .ok x, .ok y =>
    if h : x = y then .isTrue (by rw [h]) else .isFalse (fun hc => h (by injection hc))
  | .ok _, .error _ => .isFalse (fun hc => Except.noConfusion hc)
  | .error _, .ok _ => .isFalse (fun hc => Except.noConfusion hc)
  | .error x, .error y =>
    if h : x = y then .isTrue (by rw [h]) else .isFalse (fun hc => h (by injection hc))

/-- Observable result of `_retry_api_call`: attempts made, sleeps incurred
(in seconds, in order), and the value returned or error raised. -/
structure RetryResult where
  attempts : Nat
  sleeps : List Nat
  outcome : Except String Nat
deriving Repr, DecidableEq

def MAX_RETRIES : Nat := 3

def RETRY_DELAY_SECONDS : Nat := 5

def retryGo (call : Nat → CallResult) (delay : Nat) :
    Nat → Nat → List Nat → RetryResult
  | 0, attempt, sleeps => ⟨attempt, sleeps, .error "TypeError: raise None"⟩
  | r + 1, attempt, sleeps =>
    match call attempt with
    | .success v => ⟨attempt + 1, sleeps, .ok v⟩
    | .err m =>
      if isTransientMsg m && !(r == 0) then
        retryGo call delay r (attempt + 1) (sleeps ++ [delay * 2 ^ attempt])
      else ⟨attempt + 1, sleeps, .error m⟩

def _retry_api_call (call : Nat → CallResult)
    (max_retries : Nat := MAX_RETRIES) (delay : Nat := RETRY_DELAY_SECONDS) : RetryResult :=
  retryGo call delay max_retries 0 []

/-- A run whose first `r` attempts fail transiently and whose next attempt
succeeds: `r + 1` attempts and `r` doubling sleeps in total. -/
theorem retryGo_all_transient (call : Nat → CallResult) (delay v : Nat) :
    ∀ (r attempt : Nat) (sleeps : List Nat),
      (∀ i, attempt ≤ i → i < attempt + r → ∃ m, call i = .err m ∧ isTransientMsg m = true) →
      call (attempt + r) = .success v →
      retryGo call delay (r + 1) attempt sleeps
        = ⟨attempt + r + 1, sleeps ++ (List.range r).map (fun j => delay * 2 ^ (attempt + j)),
            .ok v⟩ := by
  intro r
  induction r with
  | zero =>
    intro attempt sleeps _ hsucc
    simp only [Nat.add_zero] at hsucc
    simp [retryGo, hsucc]
  | succ r ih =>
    intro attempt sleeps hfail hsucc
    rcases hfail attempt (Nat.le_refl _) (by omega) with ⟨m, hcall, htrans⟩
    have hrec := ih (attempt + 1) (sleeps ++ [delay * 2 ^ attempt])
      (fun i h1 h2 => hfail i (by omega) (by omega))
      (by rw [show attempt + 1 + r = attempt + (r + 1) from by omega]; exact hsucc)
    have hkey : (List.range (r + 1)).map (fun j => delay * 2 ^ (attempt + j))
        = delay * 2 ^ attempt
          :: (List.range r).map (fun j => delay * 2 ^ (attempt + 1 + j)) := by
      rw [List.range_succ_eq_map, List.map_cons, List.map_map]
      refine congrArg₂ _ (by rw [Nat.add_zero]) ?_
      refine List.map_congr_left fun j _ => ?_
      simp only [Function.comp_apply]
      congr 1
      congr 1
      omega
    rw [retryGo, hcall]
    simp only [htrans, Bool.true_and]
    rw [if_pos (by simp)]
    rw [hrec, hkey]
    simp only [RetryResult.mk.injEq]
    refine ⟨by omega, ?_, trivial⟩
    rw [List.append_assoc, List.singleton_append]

/-- C2 (amended). With the loop `for attempt in range(max_retries)`, a call
that fails transiently `max_retries - 1` times and then succeeds is
attempted exactly `max_retries` times with `max_retries - 1` doubling
sleeps (`delay * 2^attempt` for `attempt = 0, ..., max_retries - 2`); a
call whose first attempt fails with a non-transient (fatal) error is
attempted exactly once, sleeps never, and propagates that error. -/
theorem C2_retry_amended :
    (∀ (call : Nat → CallResult) (mr delay v : Nat),
        1 ≤ mr →
        (∀ i, i < mr - 1 → ∃ m, call i = .err m ∧ isTransientMsg m = true) →
        call (mr - 1) = .success v →
        _retry_api_call call mr delay
          = ⟨mr, (List.range (mr - 1)).map (fun i => delay * 2 ^ i), .ok v⟩)
    ∧ (∀ (call : Nat → CallResult) (mr delay : Nat) (m : String),
        1 ≤ mr → call 0 = .err m → isTransientMsg m = false →
        _retry_api_call call mr delay = ⟨1, [], .error m⟩) := by
  constructor
  · intro call mr delay v hmr hfail hsucc
    cases mr with
    | zero => omega
    | succ r =>
      have h := retryGo_all_transient call delay v r 0 []
        (fun i h1 h2 => hfail i (by omega))
        (by simpa using hsucc)
      rw [_retry_api_call, h]
      simp
  · intro call mr delay m hmr hcall hfatal
    cases mr with
    | zero => omega
    | succ r =>
      rw [_retry_api_call, retryGo, hcall]
      simp [hfatal]

/-- Oracle for the amended-claim witness: two transient failures then success. -/
def retryWitCall (n : Nat) : CallResult :=
  if n < 2 then .err "503 Service unavailable" else .success 7

/-- Oracle for the fatal half of the witness: immediate non-transient failure. -/
def retryFatalCall (_ : Nat) : CallResult :=
  .err "401 unauthorized"

/-- Witness for C2 (amended) at concrete inputs: with `max_retries = 3` and
`delay = 5`, two transient failures then a success give 3 attempts and
sleeps `[5, 10]`; a fatal first failure gives 1 attempt and no sleep. -/
theorem C2_retry_amended_witness :
    _retry_api_call retryWitCall 3 5 = ⟨3, [5, 10], .ok 7⟩
    ∧ _retry_api_call retryFatalCall 3 5 = ⟨1, [], .error "401 unauthorized"⟩ := by
  constructor
  · have h := C2_retry_amended.1 retryWitCall 3 5 7 (by decide)
      (by
        intro i hi
        refine ⟨"503 Service unavailable", ?_, by decide⟩
        have h2 : i = 0 ∨ i = 1 := by omega
        rcases h2 with h2 | h2 <;> rw [h2] <;> decide)
      (by decide)
    rw [h]
    decide
  · exact C2_retry_amended.2 retryFatalCall 3 5 "401 unauthorized" (by decide) (by decide)
      (by decide)

/-- Oracle for the C2 counterexample: three transient failures, then a
success that a fourth attempt would reach. -/
def retryCexCall (n : Nat) : CallResult :=
  if n < 3 then .err "503 Service unavailable" else .success 7

/-- C2 counterexample. The claim predicts that a call failing transiently
`max_retries = 3` times and then succeeding is attempted `max_retries + 1
= 4` times and returns the success. The code attempts it only 3 times
(loop `range(max_retries)`), never reaches the fourth, and re-raises the
transient error after 2 sleeps. -/
theorem C2_retry_counterexample :
    _retry_api_call retryCexCall 3 5 = ⟨3, [5, 10], .error "503 Service unavailable"⟩
    ∧ ¬((_retry_api_call retryCexCall 3 5).attempts = 4
        ∧ (_retry_api_call retryCexCall 3 5).outcome = .ok 7) := by
  decide

/-! ## The pipeline state machine (graph.py:114-549)

`State` is the graph.py dataclass; nodes are the graph.py node functions,
returning state deltas that LangGraph merges by overwriting the returned
keys (the dataclass schema has no reducers), which is applying the update
directly. External collaborators are an environment of oracles at exactly
the call boundaries the code uses:
  * `findScenarios` — `find_scenario_xml_files(req_name)`;
  * `ragSearch` — `vector_store.asimilarity_search(query, k)`, giving the
    `page_content` of each doc, or the exception message;
  * `llm1` — the structured `TestCaseList` response of the generation
    call (issued at most once per run), or the exception message;
  * `readFile` — `open(path).read()`, or the exception message;
  * `llm2` — the structured `TestCaseAnalysis` response of the analysis
    call of the given loop iteration, or the exception message.
Prompt construction, model names and temperature only shape the oracle's
inputs and are absorbed by it. -/

/-- `GeneratedTestCase` Pydantic model: `{id, description}`. -/
structure GenTC where
  id : String
  description : String
deriving Repr, DecidableEq

/-- The graph.py `State` dataclass (field defaults are the dataclass defaults). -/
structure GState where
  req_name : String
  scenario_paths : List String
  current_scenario_index : Nat
  current_scenario_content : String
  current_scenario_name : String
  requirement_description : String
  rag_context : String
  generated_test_cases : List String
  scenario_results : List ScenarioResult
  aggregated_test_cases : List TestCase
  errors : List String
deriving Repr, DecidableEq

/-- The initial state of a run: only `req_name` populated. -/
def initState (req : String) : GState :=
  ⟨req, [], 0, "", "", "", "", [], [], [], []⟩

/-- Oracles for the external collaborators (see the section comment). -/
structure Env where
  findScenarios : String → List String
  ragSearch : String → Except String (List String)
  llm1 : Except String (List GenTC)
  readFile : String → Except String String
  llm2 : Nat → Except String (List TestCase)

/-- Split a character list on a separator (like `str.split(sep)`). -/
def splitOnChar (sep : Char) : List Char → List (List Char)
  | [] => [[]]
  | c :: rest =>
    let r := splitOnChar sep rest
    if c == sep then [] :: r
    else
      match r with
      | [] => [[c]]
      | g :: gs => (c :: g) :: gs

/-- `Path(p).stem`: final component of the path, without its last suffix. -/
def pathStem (p : String) : String :=
  let base := (splitOnChar '/' p.toList).getLastD p.toList
  let parts := splitOnChar '.' base
  if parts.length ≤ 1 then String.mk base
  else String.mk (List.intercalate ['.'] parts.dropLast)

/-- Node 0 `load_scenarios`: discover paths; empty discovery appends an error. -/
def load_scenarios (env : Env) (s : GState) : GState :=
  let scenario_paths := env.findScenarios s.req_name
  if scenario_paths.isEmpty then
    { s with errors := s.errors ++
        ["Aucun scénario trouvé pour le requirement " ++ s.req_name] }
  else
    { s with scenario_paths := scenario_paths }

/-- Node 1 `retrieve_requirement`: RAG lookup with exceptions converted to
an error string; note it does not check `state.errors` first. -/
def retrieve_requirement (env : Env) (s : GState) : GState :=
  match env.ragSearch ("Requirement " ++ s.req_name) with
  | .error e => { s with errors := s.errors ++ ["Erreur RAG: " ++ e] }
  | .ok [] =>
      { s with errors := s.errors ++
          ["Aucun document trouvé pour le requirement " ++ s.req_name] }
  | .ok (d :: _) => { s with rag_context := d, requirement_description := d }

/-- Node 2 `generate_test_cases` (graph.py): skipped when errors exist;
renders each generated case as `"id: description"`. -/
def generate_test_cases_g (env : Env) (s : GState) : GState :=
  if s.errors ≠ [] then s
  else
    match env.llm1 with
    | .error e => { s with errors := s.errors ++ ["Erreur LLM1: " ++ e] }
    | .ok resp =>
        { s with generated_test_cases :=
            resp.map (fun tc => tc.id ++ ": " ++ tc.description) }

/-- Node 3 `load_current_scenario`. -/
def load_current_scenario (env : Env) (s : GState) : GState :=
  if s.errors ≠ [] ∨ s.scenario_paths = [] then s
  else if s.scenario_paths.length ≤ s.current_scenario_index then s
  else
    let scenario_path := s.scenario_paths.getD s.current_scenario_index ""
    match env.readFile scenario_path with
    | .ok content =>
        { s with current_scenario_content := content,
                 current_scenario_name := pathStem scenario_path }
    | .error e =>
        { s with errors := s.errors ++
            ["Erreur lecture " ++ scenario_path ++ ": " ++ e] }

/-- Node 4 `analyze_test_scenario`: one structured LLM2 call; appends one
`ScenarioResult` on success; an exception (including an out-of-range path
index) becomes one `Erreur LLM2` error string. -/
def analyze_test_scenario (env : Env) (s : GState) : GState :=
  if s.errors ≠ [] ∨ s.generated_test_cases = [] ∨ s.current_scenario_content = "" then s
  else
    match env.llm2 s.current_scenario_index with
    | .error e => { s with errors := s.errors ++ ["Erreur LLM2: " ++ e] }
    | .ok tcs =>
        match s.scenario_paths.get? s.current_scenario_index with
        | none =>
            { s with errors := s.errors ++ ["Erreur LLM2: list index out of range"] }
        | some path =>
            { s with scenario_results := s.scenario_results ++
                [⟨s.current_scenario_name, path, tcs⟩] }

/-- Node 6 `move_to_next_scenario`: unconditional increment. -/
def move_to_next_scenario (s : GState) : GState :=
  { s with current_scenario_index := s.current_scenario_index + 1 }

/-- Node 5 `aggregate_test_cases` as a node: writes the derived field. -/
def aggregate_node (s : GState) : GState :=
  { s with aggregated_test_cases := aggregate_test_cases s.scenario_results }

/-- Conditional edge `has_more_scenarios` (graph.py:511-517). -/
def has_more_scenarios (s : GState) : String :=
  if s.errors ≠ [] then "end"
  else if s.current_scenario_index < s.scenario_paths.length then "continue"
  else "end"

/-- `route_scenario_loop` (nodes.py:504-510), over the state fields it reads. -/
def route_scenario_loop (errors : List String) (current_scenario_index : Nat)
    (scenario_paths : List String) : String :=
  if errors ≠ [] then "end"
  else if current_scenario_index < scenario_paths.length then "continue"
  else "end"

/-- One pass of the loop body: edges `load_current_scenario →
analyze_test_scenario → move_to_next_scenario`. -/
def loopBody (env : Env) (s : GState) : GState :=
  move_to_next_scenario (analyze_test_scenario env (load_current_scenario env s))

/-- The loop: run the body, then follow the conditional edge, with fuel.
Entry from `generate_test_cases` is unconditional, so the first body pass
always runs. Each pass increments `current_scenario_index` by one and
preserves `scenario_paths`, and the back edge requires
`current_scenario_index < len(scenario_paths)`, so a run from index 0
makes at most `max(len(scenario_paths), 1)` passes: fuel
`len(scenario_paths) + 1` is never exhausted. -/
def loopFuel (env : Env) : Nat → GState → GState
  | 0, s => s
  | f + 1, s =>
    let s' := loopBody env s
    if has_more_scenarios s' = "continue" then loopFuel env f s' else s'

/-- The compiled graph run end to end on an input `req_name`. -/
def runPipeline (env : Env) (req : String) : GState :=
  let s1 := load_scenarios env (initState req)
  let s2 := retrieve_requirement env s1
  let s3 := generate_test_cases_g env s2
  aggregate_node (loopFuel env (s3.scenario_paths.length + 1) s3)

-- Field-preservation facts about the node functions, used by the loop
-- invariant proofs below.

theorem load_scenarios_index (env : Env) (s : GState) :
    (load_scenarios env s).current_scenario_index = s.current_scenario_index := by
  simp only [load_scenarios]
  repeat' split
  all_goals rfl

theorem load_scenarios_generated (env : Env) (s : GState) :
    (load_scenarios env s).generated_test_cases = s.generated_test_cases := by
  simp only [load_scenarios]
  repeat' split
  all_goals rfl

theorem load_scenarios_results (env : Env) (s : GState) :
    (load_scenarios env s).scenario_results = s.scenario_results := by
  simp only [load_scenarios]
  repeat' split
  all_goals rfl

theorem retrieve_requirement_index (env : Env) (s : GState) :
    (retrieve_requirement env s).current_scenario_index = s.current_scenario_index := by
  simp only [retrieve_requirement]
  repeat' split
  all_goals rfl

theorem retrieve_requirement_paths (env : Env) (s : GState) :
    (retrieve_requirement env s).scenario_paths = s.scenario_paths := by
  simp only [retrieve_requirement]
  repeat' split
  all_goals rfl

theorem retrieve_requirement_generated (env : Env) (s : GState) :
    (retrieve_requirement env s).generated_test_cases = s.generated_test_cases := by
  simp only [retrieve_requirement]
  repeat' split
  all_goals rfl

theorem retrieve_requirement_results (env : Env) (s : GState) :
    (retrieve_requirement env s).scenario_results = s.scenario_results := by
  simp only [retrieve_requirement]
  repeat' split
  all_goals rfl

theorem generate_test_cases_g_index (env : Env) (s : GState) :
    (generate_test_cases_g env s).current_scenario_index = s.current_scenario_index := by
  simp only [generate_test_cases_g]
  repeat' split
  all_goals rfl

theorem generate_test_cases_g_paths (env : Env) (s : GState) :
    (generate_test_cases_g env s).scenario_paths = s.scenario_paths := by
  simp only [generate_test_cases_g]
  repeat' split
  all_goals rfl

theorem generate_test_cases_g_results (env : Env) (s : GState) :
    (generate_test_cases_g env s).scenario_results = s.scenario_results := by
  simp only [generate_test_cases_g]
  repeat' split
  all_goals rfl

theorem load_current_scenario_index (env : Env) (s : GState) :
    (load_current_scenario env s).current_scenario_index = s.current_scenario_index := by
  simp only [load_current_scenario]
  repeat' split
  all_goals rfl

theorem load_current_scenario_paths (env : Env) (s : GState) :
    (load_current_scenario env s).scenario_paths = s.scenario_paths := by
  simp only [load_current_scenario]
  repeat' split
  all_goals rfl

theorem load_current_scenario_generated (env : Env) (s : GState) :
    (load_current_scenario env s).generated_test_cases = s.generated_test_cases := by
  simp only [load_current_scenario]
  repeat' split
  all_goals rfl

theorem load_current_scenario_results (env : Env) (s : GState) :
    (load_current_scenario env s).scenario_results = s.scenario_results := by
  simp only [load_current_scenario]
  repeat' split
  all_goals rfl

theorem analyze_test_scenario_index (env : Env) (s : GState) :
    (analyze_test_scenario env s).current_scenario_index = s.current_scenario_index := by
  simp only [analyze_test_scenario]
  repeat' split
  all_goals rfl

theorem analyze_test_scenario_paths (env : Env) (s : GState) :
    (analyze_test_scenario env s).scenario_paths = s.scenario_paths := by
  simp only [analyze_test_scenario]
  repeat' split
  all_goals rfl

theorem analyze_test_scenario_generated (env : Env) (s : GState) :
    (analyze_test_scenario env s).generated_test_cases = s.generated_test_cases := by
  simp only [analyze_test_scenario]
  repeat' split
  all_goals rfl

theorem loopBody_index (env : Env) (s : GState) :
    (loopBody env s).current_scenario_index = s.current_scenario_index + 1 := by
  simp only [loopBody, move_to_next_scenario]
  simp only [analyze_test_scenario_index, load_current_scenario_index]

theorem loopBody_paths (env : Env) (s : GState) :
    (loopBody env s).scenario_paths = s.scenario_paths := by
  simp only [loopBody, move_to_next_scenario]
  simp only [analyze_test_scenario_paths, load_current_scenario_paths]

theorem loopBody_generated (env : Env) (s : GState) :
    (loopBody env s).generated_test_cases = s.generated_test_cases := by
  simp only [loopBody, move_to_next_scenario]
  simp only [analyze_test_scenario_generated, load_current_scenario_generated]

theorem load_current_scenario_on_error (env : Env) (s : GState) (h : s.errors ≠ []) :
    load_current_scenario env s = s := by
  simp only [load_current_scenario]
  rw [if_pos (Or.inl h)]

theorem analyze_test_scenario_on_error (env : Env) (s : GState) (h : s.errors ≠ []) :
    analyze_test_scenario env s = s := by
  simp only [analyze_test_scenario]
  rw [if_pos (Or.inl h)]

theorem loopBody_on_error (env : Env) (s : GState) (h : s.errors ≠ []) :
    loopBody env s = { s with current_scenario_index := s.current_scenario_index + 1 } := by
  simp only [loopBody, load_current_scenario_on_error env s h,
    analyze_test_scenario_on_error env s h, move_to_next_scenario]

/-- C3 (amended). An error recorded while processing scenario `i` ends the
loop: both loop guards (`route_scenario_loop` in nodes.py and
`has_more_scenarios` in graph.py) return "end" as soon as `errors` is
non-empty, and one more pass of the loop under a non-empty `errors` is a
pure index increment (no scenario is loaded, analyzed or recorded) after
which the loop exits to aggregation. Scenarios `i+1 .. n` are therefore
not analyzed and `scenario_results` receives no further entries. -/
theorem C3_error_blocks_loop_amended :
    (∀ (errors : List String) (idx : Nat) (paths : List String),
        errors ≠ [] → route_scenario_loop errors idx paths = "end")
    ∧ (∀ s : GState, s.errors ≠ [] → has_more_scenarios s = "end")
    ∧ (∀ (env : Env) (f : Nat) (s : GState), s.errors ≠ [] →
        loopFuel env (f + 1) s
          = { s with current_scenario_index := s.current_scenario_index + 1 }) := by
  refine ⟨?_, ?_, ?_⟩
  · intro errors idx paths h
    rw [route_scenario_loop, if_pos h]
  · intro s h
    rw [has_more_scenarios, if_pos h]
  · intro env f s h
    simp only [loopFuel]
    rw [loopBody_on_error env s h]
    rw [if_neg]
    intro hc
    rw [has_more_scenarios, if_pos h] at hc
    exact absurd hc (by decide)

/-- Witness state for C3 (amended): one pre-existing error, two paths. -/
def c3WitState : GState :=
  ⟨"REQ", ["p1", "p2"], 0, "", "", "", "", [], [], [], ["boom"]⟩

/-- Oracle environment for the C3 witness (contents never reached). -/
def envTriv : Env :=
  { findScenarios := fun _ => []
  , ragSearch := fun _ => .error "down"
  , llm1 := .error "down"
  , readFile := fun _ => .error "down"
  , llm2 := fun _ => .error "down" }

/-- Witness for C3 (amended) at concrete inputs. -/
theorem C3_error_blocks_loop_amended_witness :
    route_scenario_loop ["boom"] 0 ["p1", "p2"] = "end"
    ∧ has_more_scenarios c3WitState = "end"
    ∧ loopFuel envTriv 3 c3WitState
        = { c3WitState with current_scenario_index := 1 } :=
  ⟨C3_error_blocks_loop_amended.1 ["boom"] 0 ["p1", "p2"] (by decide),
   C3_error_blocks_loop_amended.2.1 c3WitState (by decide),
   C3_error_blocks_loop_amended.2.2 envTriv 2 c3WitState (by decide)⟩

/-- Oracle environment for the C3 counterexample: two scenarios; analysis
of the first raises, analysis of the second would succeed. -/
def envLoopCex : Env :=
  { findScenarios := fun _ => ["p1", "p2"]
  , ragSearch := fun _ => .ok ["doc"]
  , llm1 := .ok [⟨"TC-001", "desc"⟩]
  , readFile := fun _ => .ok "scenario content"
  , llm2 := fun i => if i == 0 then .error "boom" else .ok [⟨"TC-001", "desc", true⟩] }

/-- C3 counterexample. The claim predicts that after scenario 0's analysis
appends an error, scenario 1 is still analyzed and its result appended.
In the code the loop guard sees the error and ends the loop: the run
finishes with the error recorded and `scenario_results` empty — scenario
1 (whose analysis would have succeeded) is never processed. -/
theorem C3_error_blocks_loop_counterexample :
    (runPipeline envLoopCex "REQ").scenario_results = []
    ∧ (runPipeline envLoopCex "REQ").errors = ["Erreur LLM2: boom"]
    ∧ (runPipeline envLoopCex "REQ").scenario_paths = ["p1", "p2"]
    ∧ (runPipeline envLoopCex "REQ").current_scenario_index = 1 :=
  ⟨rfl, rfl, rfl, rfl⟩

theorem aggregate_node_index (s : GState) :
    (aggregate_node s).current_scenario_index = s.current_scenario_index := rfl

theorem aggregate_node_paths (s : GState) :
    (aggregate_node s).scenario_paths = s.scenario_paths := rfl

theorem loopFuel_index_le (env : Env) :
    ∀ (f : Nat) (s : GState),
      s.current_scenario_index ≤ (loopFuel env f s).current_scenario_index := by
  intro f
  induction f with
  | zero => intro s; exact Nat.le_refl _
  | succ f ih =>
    intro s
    simp only [loopFuel]
    split
    · exact Nat.le_trans (by rw [loopBody_index]; omega) (ih (loopBody env s))
    · rw [loopBody_index]
      omega

theorem has_more_scenarios_continue {s : GState} (h : has_more_scenarios s = "continue") :
    s.errors = [] ∧ s.current_scenario_index < s.scenario_paths.length := by
  by_cases h1 : s.errors ≠ []
  · rw [has_more_scenarios, if_pos h1] at h
    exact absurd h (by decide)
  · have h1' : s.errors = [] := by
      by_contra hc
      exact h1 hc
    by_cases h2 : s.current_scenario_index < s.scenario_paths.length
    · exact ⟨h1', h2⟩
    · rw [has_more_scenarios, if_neg h1, if_neg h2] at h
      exact absurd h (by decide)

/-- The loop keeps the index below `max len(scenario_paths) 1`: the only
entry with an out-of-range index is the unconditional first pass when
discovery found no scenarios (index 0, zero paths). -/
theorem loopFuel_index_bound (env : Env) :
    ∀ (f : Nat) (s : GState),
      (s.current_scenario_index < s.scenario_paths.length
        ∨ (s.scenario_paths.length = 0 ∧ s.current_scenario_index = 0)) →
      (loopFuel env f s).current_scenario_index
        ≤ max (loopFuel env f s).scenario_paths.length 1 := by
  intro f
  induction f with
  | zero =>
    intro s h
    simp only [loopFuel]
    rcases h with h | ⟨h1, h2⟩
    · exact Nat.le_trans (Nat.le_of_lt h) (Nat.le_max_left _ _)
    · rw [h2]
      exact Nat.zero_le _
  | succ f ih =>
    intro s h
    simp only [loopFuel]
    split
    · rename_i hg
      exact ih (loopBody env s) (Or.inl (has_more_scenarios_continue hg).2)
    · rw [loopBody_index, loopBody_paths]
      rcases h with h | ⟨h1, h2⟩
      · exact Nat.le_trans (Nat.succ_le_of_lt h) (Nat.le_max_left _ _)
      · rw [h1, h2]
        exact Nat.le_max_right 0 1

/-- C4 (amended). `current_scenario_index` is monotonically non-decreasing
across every node transition and across the loop; but its upper bound is
`max(len(scenario_paths), 1)`, not `len(scenario_paths)`: when scenario
discovery finds no paths, the loop body still runs once unconditionally
and `move_to_next_scenario` leaves the final index at 1 > 0. -/
theorem C4_index_monotone_bounded :
    (∀ (env : Env) (s : GState),
        s.current_scenario_index ≤ (load_scenarios env s).current_scenario_index
        ∧ s.current_scenario_index ≤ (retrieve_requirement env s).current_scenario_index
        ∧ s.current_scenario_index ≤ (generate_test_cases_g env s).current_scenario_index
        ∧ s.current_scenario_index ≤ (load_current_scenario env s).current_scenario_index
        ∧ s.current_scenario_index ≤ (analyze_test_scenario env s).current_scenario_index
        ∧ s.current_scenario_index ≤ (move_to_next_scenario s).current_scenario_index
        ∧ s.current_scenario_index ≤ (aggregate_node s).current_scenario_index)
    ∧ (∀ (env : Env) (f : Nat) (s : GState),
        s.current_scenario_index ≤ (loopFuel env f s).current_scenario_index)
    ∧ (∀ (env : Env) (req : String),
        (runPipeline env req).current_scenario_index
          ≤ max (runPipeline env req).scenario_paths.length 1) := by
  refine ⟨?_, ?_, ?_⟩
  · intro env s
    refine ⟨?_, ?_, ?_, ?_, ?_, ?_, ?_⟩
    · rw [load_scenarios_index]
    · rw [retrieve_requirement_index]
    · rw [generate_test_cases_g_index]
    · rw [load_current_scenario_index]
    · rw [analyze_test_scenario_index]
    · exact Nat.le_succ _
    · rw [aggregate_node_index]
  · exact loopFuel_index_le
  · intro env req
    have hidx3 : (generate_test_cases_g env (retrieve_requirement env
        (load_scenarios env (initState req)))).current_scenario_index = 0 := by
      rw [generate_test_cases_g_index, retrieve_requirement_index, load_scenarios_index]
      rfl
    have hpre : (generate_test_cases_g env (retrieve_requirement env
          (load_scenarios env (initState req)))).current_scenario_index
        < (generate_test_cases_g env (retrieve_requirement env
          (load_scenarios env (initState req)))).scenario_paths.length
      ∨ ((generate_test_cases_g env (retrieve_requirement env
          (load_scenarios env (initState req)))).scenario_paths.length = 0
        ∧ (generate_test_cases_g env (retrieve_requirement env
          (load_scenarios env (initState req)))).current_scenario_index = 0) := by
      by_cases hp : (generate_test_cases_g env (retrieve_requirement env
          (load_scenarios env (initState req)))).scenario_paths.length = 0
      · exact Or.inr ⟨hp, hidx3⟩
      · refine Or.inl ?_
        rw [hidx3]
        omega
    have hrw : runPipeline env req = aggregate_node (loopFuel env
        ((generate_test_cases_g env (retrieve_requirement env
          (load_scenarios env (initState req)))).scenario_paths.length + 1)
        (generate_test_cases_g env (retrieve_requirement env
          (load_scenarios env (initState req))))) := rfl
    rw [hrw, aggregate_node_index, aggregate_node_paths]
    exact loopFuel_index_bound env _ _ hpre

/-- Witness for C4 (amended) at concrete inputs. -/
theorem C4_index_monotone_bounded_witness :
    c3WitState.current_scenario_index
      ≤ (move_to_next_scenario c3WitState).current_scenario_index
    ∧ (runPipeline envLoopCex "REQ").current_scenario_index
      ≤ max (runPipeline envLoopCex "REQ").scenario_paths.length 1 :=
  ⟨(C4_index_monotone_bounded.1 envTriv c3WitState).2.2.2.2.2.1,
   C4_index_monotone_bounded.2.2 envLoopCex "REQ"⟩

/-- Oracle environment for the C4 counterexample: no scenarios found. -/
def envNoScen : Env :=
  { findScenarios := fun _ => []
  , ragSearch := fun _ => .ok ["doc"]
  , llm1 := .ok []
  , readFile := fun _ => .error "io"
  , llm2 := fun _ => .error "llm" }

/-- C4 counterexample. With zero scenario paths the run ends with
`current_scenario_index = 1 > 0 = len(scenario_paths)`: the claimed bound
`current_scenario_index ≤ len(scenario_paths)` fails on a reachable final
state (the unconditional first loop pass still increments the index). -/
theorem C4_index_bound_counterexample :
    (runPipeline envNoScen "REQ-001").current_scenario_index = 1
    ∧ (runPipeline envNoScen "REQ-001").scenario_paths.length = 0
    ∧ ¬((runPipeline envNoScen "REQ-001").current_scenario_index
        ≤ (runPipeline envNoScen "REQ-001").scenario_paths.length) :=
  ⟨rfl, rfl, by decide⟩

theorem aggregate_node_generated (s : GState) :
    (aggregate_node s).generated_test_cases = s.generated_test_cases := rfl

theorem aggregate_node_results (s : GState) :
    (aggregate_node s).scenario_results = s.scenario_results := rfl

/-- Whether an id is rendered in `generated_test_cases` (entries are the
strings `"id: description"`). -/
def genHasId (gen : List String) (k : String) : Bool :=
  gen.any (fun g => (k.toList ++ [':']).isPrefixOf g.toList)

/-- `analyze_test_scenario` either leaves `scenario_results` unchanged or
(only with a non-empty generated list) appends exactly the test cases of
a successful LLM2 response. -/
theorem analyze_results_cases (env : Env) (s : GState) :
    (analyze_test_scenario env s).scenario_results = s.scenario_results
    ∨ (s.generated_test_cases ≠ []
        ∧ ∃ tcs path, env.llm2 s.current_scenario_index = Except.ok tcs
          ∧ (analyze_test_scenario env s).scenario_results
              = s.scenario_results ++ [⟨s.current_scenario_name, path, tcs⟩]) := by
  simp only [analyze_test_scenario]
  split
  · exact Or.inl rfl
  · rename_i hguard
    split
    · exact Or.inl rfl
    · rename_i tcs heq
      split
      · exact Or.inl rfl
      · rename_i path hpath
        refine Or.inr ⟨?_, tcs, path, heq, rfl⟩
        intro hc
        exact hguard (Or.inr (Or.inl hc))

theorem loopBody_C5_inv (env : Env) (ids : List String)
    (hsub : ∀ i tcs, env.llm2 i = Except.ok tcs → ∀ tc ∈ tcs, tc.id ∈ ids)
    (s : GState)
    (h1 : ∀ sr ∈ s.scenario_results, ∀ tc ∈ sr.test_cases, tc.id ∈ ids)
    (h2 : s.generated_test_cases = [] → s.scenario_results = []) :
    (∀ sr ∈ (loopBody env s).scenario_results, ∀ tc ∈ sr.test_cases, tc.id ∈ ids)
    ∧ ((loopBody env s).generated_test_cases = []
        → (loopBody env s).scenario_results = []) := by
  have hres : (loopBody env s).scenario_results
      = (analyze_test_scenario env (load_current_scenario env s)).scenario_results := rfl
  have hgen : (loopBody env s).generated_test_cases = s.generated_test_cases :=
    loopBody_generated env s
  rcases analyze_results_cases env (load_current_scenario env s) with
    hcase | ⟨hgen1, tcs, path, heq, hres2⟩
  · constructor
    · intro sr hsr
      rw [hres, hcase, load_current_scenario_results] at hsr
      exact h1 sr hsr
    · intro hg
      rw [hres, hcase, load_current_scenario_results]
      exact h2 (by rw [← hgen]; exact hg)
  · constructor
    · intro sr hsr
      rw [hres, hres2, load_current_scenario_results] at hsr
      rcases List.mem_append.mp hsr with h | h
      · exact h1 sr h
      · have hsr2 : sr = ⟨(load_current_scenario env s).current_scenario_name, path, tcs⟩ := by
          simpa using h
        intro tc htc
        rw [hsr2] at htc
        exact hsub _ tcs heq tc htc
    · intro hg
      exfalso
      apply hgen1
      rw [load_current_scenario_generated, ← hgen]
      exact hg

theorem loopFuel_C5_inv (env : Env) (ids : List String)
    (hsub : ∀ i tcs, env.llm2 i = Except.ok tcs → ∀ tc ∈ tcs, tc.id ∈ ids) :
    ∀ (f : Nat) (s : GState),
      (∀ sr ∈ s.scenario_results, ∀ tc ∈ sr.test_cases, tc.id ∈ ids) →
      (s.generated_test_cases = [] → s.scenario_results = []) →
      (loopFuel env f s).generated_test_cases = s.generated_test_cases
      ∧ (∀ sr ∈ (loopFuel env f s).scenario_results, ∀ tc ∈ sr.test_cases, tc.id ∈ ids)
      ∧ ((loopFuel env f s).generated_test_cases = []
          → (loopFuel env f s).scenario_results = []) := by
  intro f
  induction f with
  | zero =>
    intro s h1 h2
    exact ⟨rfl, h1, h2⟩
  | succ f ih =>
    intro s h1 h2
    have hstep := loopBody_C5_inv env ids hsub s h1 h2
    simp only [loopFuel]
    split
    · rcases ih (loopBody env s) hstep.1 hstep.2 with ⟨ha, hb, hc⟩
      exact ⟨by rw [ha, loopBody_generated], hb, hc⟩
    · exact ⟨loopBody_generated env s, hstep.1, hstep.2⟩

theorem generate_g_generated_cases (env : Env) (s : GState) :
    (generate_test_cases_g env s).generated_test_cases = s.generated_test_cases
    ∨ ∃ lst, env.llm1 = Except.ok lst
        ∧ (generate_test_cases_g env s).generated_test_cases
            = lst.map (fun tc => tc.id ++ ": " ++ tc.description) := by
  simp only [generate_test_cases_g]
  split
  · exact Or.inl rfl
  · split
    · exact Or.inl rfl
    · rename_i resp heq
      exact Or.inr ⟨resp, heq, rfl⟩

/-- C5 (amended). The pipeline performs no validation of its own: the
invariant holds exactly when the model responses supply it. If the
generation response carries pairwise-distinct ids and every successful
coverage-analysis response only mentions generated ids, then at the end
of every run `generated_test_cases` is either empty (with no scenario
results) or the rendering of that id-distinct generation response, and
every test-case id stored in any `ScenarioResult` is a generated id. -/
theorem C5_invariant_amended :
    ∀ (env : Env) (req : String) (l : List GenTC),
      env.llm1 = Except.ok l →
      (l.map GenTC.id).Nodup →
      (∀ i tcs, env.llm2 i = Except.ok tcs → ∀ tc ∈ tcs, tc.id ∈ l.map GenTC.id) →
      ((runPipeline env req).generated_test_cases = []
          ∧ (runPipeline env req).scenario_results = []
        ∨ (runPipeline env req).generated_test_cases
            = l.map (fun tc => tc.id ++ ": " ++ tc.description))
      ∧ ∀ sr ∈ (runPipeline env req).scenario_results, ∀ tc ∈ sr.test_cases,
          tc.id ∈ l.map GenTC.id := by
  intro env req l hllm1 hnd hsub
  have hrw : runPipeline env req = aggregate_node (loopFuel env
      ((generate_test_cases_g env (retrieve_requirement env
        (load_scenarios env (initState req)))).scenario_paths.length + 1)
      (generate_test_cases_g env (retrieve_requirement env
        (load_scenarios env (initState req))))) := rfl
  have hres3 : (generate_test_cases_g env (retrieve_requirement env
      (load_scenarios env (initState req)))).scenario_results = [] := by
    rw [generate_test_cases_g_results, retrieve_requirement_results, load_scenarios_results]
    rfl
  have h1 : ∀ sr ∈ (generate_test_cases_g env (retrieve_requirement env
      (load_scenarios env (initState req)))).scenario_results,
      ∀ tc ∈ sr.test_cases, tc.id ∈ l.map GenTC.id := by
    rw [hres3]
    intro sr hsr
    cases hsr
  have h2 : (generate_test_cases_g env (retrieve_requirement env
      (load_scenarios env (initState req)))).generated_test_cases = []
      → (generate_test_cases_g env (retrieve_requirement env
      (load_scenarios env (initState req)))).scenario_results = [] := by
    intro _
    exact hres3
  rcases loopFuel_C5_inv env (l.map GenTC.id) hsub
      ((generate_test_cases_g env (retrieve_requirement env
        (load_scenarios env (initState req)))).scenario_paths.length + 1)
      (generate_test_cases_g env (retrieve_requirement env
        (load_scenarios env (initState req)))) h1 h2 with ⟨ha, hb, hc⟩
  constructor
  · rcases generate_g_generated_cases env (retrieve_requirement env
        (load_scenarios env (initState req))) with hg | ⟨lst, heq, hg⟩
    · -- generation skipped or degenerate: generated is the (empty) prior value
      have hg0 : (generate_test_cases_g env (retrieve_requirement env
          (load_scenarios env (initState req)))).generated_test_cases = [] := by
        rw [hg, retrieve_requirement_generated, load_scenarios_generated]
        rfl
      refine Or.inl ?_
      rw [hrw, aggregate_node_generated, aggregate_node_results]
      exact ⟨by rw [ha, hg0], hc (by rw [ha, hg0])⟩
    · have hl : lst = l := by
        rw [hllm1] at heq
        injection heq with h
        exact h.symm
      refine Or.inr ?_
      rw [hrw, aggregate_node_generated, ha, hg, hl]
  · intro sr hsr
    rw [hrw, aggregate_node_results] at hsr
    exact hb sr hsr

/-- Oracle environment refuting C5 as stated: the generation response
repeats id TC-001 and the coverage response reports id TC-999, which was
never generated. -/
def envDupIds : Env :=
  { findScenarios := fun _ => ["p1"]
  , ragSearch := fun _ => .ok ["doc"]
  , llm1 := .ok [⟨"TC-001", "a"⟩, ⟨"TC-001", "b"⟩]
  , readFile := fun _ => .ok "scenario content"
  , llm2 := fun _ => .ok [⟨"TC-999", "x", true⟩] }

/-- C5 counterexample. In a reachable final state, `generated_test_cases`
holds two entries with the same id TC-001 (ids not pairwise distinct),
and the stored `ScenarioResult` holds id TC-999, which is not a member of
`generated_test_cases`: the code never validates either property. -/
theorem C5_invariant_counterexample :
    (runPipeline envDupIds "REQ").generated_test_cases = ["TC-001: a", "TC-001: b"]
    ∧ (runPipeline envDupIds "REQ").scenario_results
        = [⟨"p1", "p1", [⟨"TC-999", "x", true⟩]⟩]
    ∧ genHasId (runPipeline envDupIds "REQ").generated_test_cases "TC-999" = false :=
  ⟨rfl, rfl, rfl⟩

/-- Witness for C5 (amended) at a concrete input: distinct generated ids
and a coverage response restricted to them. -/
def envWellBehaved : Env :=
  { findScenarios := fun _ => ["p1"]
  , ragSearch := fun _ => .ok ["doc"]
  , llm1 := .ok [⟨"TC-001", "a"⟩, ⟨"TC-002", "b"⟩]
  , readFile := fun _ => .ok "scenario content"
  , llm2 := fun _ => .ok [⟨"TC-001", "a", true⟩, ⟨"TC-002", "b", false⟩] }

/-- Witness for C5 (amended): the hypotheses hold for `envWellBehaved` and
the conclusion follows by the amended theorem. -/
theorem C5_invariant_amended_witness :
    ((runPipeline envWellBehaved "REQ").generated_test_cases = []
        ∧ (runPipeline envWellBehaved "REQ").scenario_results = []
      ∨ (runPipeline envWellBehaved "REQ").generated_test_cases
          = [⟨"TC-001", "a"⟩, ⟨"TC-002", "b"⟩].map
              (fun tc : GenTC => tc.id ++ ": " ++ tc.description))
    ∧ ∀ sr ∈ (runPipeline envWellBehaved "REQ").scenario_results,
        ∀ tc ∈ sr.test_cases,
          tc.id ∈ [⟨"TC-001", "a"⟩, ⟨"TC-002", "b"⟩].map GenTC.id :=
  C5_invariant_amended envWellBehaved "REQ" [⟨"TC-001", "a"⟩, ⟨"TC-002", "b"⟩]
    rfl (by decide)
    (by
      intro i tcs heq tc htc
      have htcs : tcs = [⟨"TC-001", "a", true⟩, ⟨"TC-002", "b", false⟩] := by
        injection heq with h
        exact h.symm
      rw [htcs] at htc
      rcases List.mem_cons.mp htc with h | h
      · rw [h]; exact List.mem_cons_self _ _
      · rcases List.mem_cons.mp h with h' | h'
        · rw [h']
          exact List.mem_cons_of_mem _ (List.mem_cons_self _ _)
        · cases h')

/-! ## False-positive verification (nodes.py:427-496 and 292-307)

`analyze_scenario` (nodes.py) builds the scenario result from the coverage
response, calls `_verify_false_positives` on the cases marked present
(`asyncio.gather` launches one `_verify_single_tc` task per present case,
in order, with `return_exceptions=True`; non-dict results are filtered
out), then flips `present` to False for every id in the returned records.
The verification calls are modelled by an oracle indexed by the position
of the present case in the fan-out: `parsed c` is a response whose parsed
payload is the `FalsePositiveCheck` `c`, `parsedNone` a response without
parsed payload, and `raises` any exception (`_verify_single_tc` catches
them all and returns None). -/

/-- `FalsePositiveCheck` structured output: `{is_false_positive, reason}`. -/
structure FalsePositiveCheck where
  is_false_positive : Bool
  reason : String
deriving Repr, DecidableEq

/-- Outcome of one verification call (after the retry wrapper). -/
inductive VerifyOut where
  | parsed (c : FalsePositiveCheck)
  | parsedNone
  | raises (msg : String)
deriving Repr, DecidableEq

/-- `_verify_single_tc`: emit a `FalsePositive` record only for a parsed
response with `is_false_positive = true`; exceptions yield None. -/
def _verify_single_tc (out : VerifyOut) (scenario_name scenario_path : String)
    (tc : TestCase) : Option FalsePositive :=
  match out with
  | .parsed c =>
      if c.is_false_positive then
        some ⟨scenario_name, scenario_path, tc.id, tc.description, c.reason⟩
      else none
  | .parsedNone => none
  | .raises _ => none

/-- Whether a verification outcome is a confirmed false positive. -/
def isConfirmedFP (out : VerifyOut) : Bool :=
  match out with
  | .parsed c => c.is_false_positive
  | .parsedNone => false
  | .raises _ => false

/-- The fan-out over the present cases starting at task index `i`:
`gather` keeps task order and the comprehension keeps only dict results. -/
def verifyAll (outs : Nat → VerifyOut) (scenario_name scenario_path : String) :
    Nat → List TestCase → List FalsePositive
  | _, [] => []
  | i, tc :: rest =>
    match _verify_single_tc (outs i) scenario_name scenario_path tc with
    | some fp => fp :: verifyAll outs scenario_name scenario_path (i + 1) rest
    | none => verifyAll outs scenario_name scenario_path (i + 1) rest

/-- `_verify_false_positives`. -/
def _verify_false_positives (outs : Nat → VerifyOut) (present_tcs : List TestCase)
    (scenario_name scenario_path : String) : List FalsePositive :=
  verifyAll outs scenario_name scenario_path 0 present_tcs

/-- The flip loop in `analyze_scenario`: `tc["present"] = False` for every
id in `fp_ids`. -/
def applyFalsePositives (tcs : List TestCase) (fps : List FalsePositive) : List TestCase :=
  tcs.map (fun tc =>
    if fps.any (fun fp => fp.test_case_id == tc.id) then { tc with present := false }
    else tc)

/-- The verification stage of `analyze_scenario`: final stored test cases
and emitted `FalsePositive` records. -/
def analyzeMergeFPs (outs : Nat → VerifyOut) (scenario_name scenario_path : String)
    (tcs : List TestCase) : List TestCase × List FalsePositive :=
  let present_tcs := tcs.filter (fun tc => tc.present)
  let fps := _verify_false_positives outs present_tcs scenario_name scenario_path
  (applyFalsePositives tcs fps, fps)

/-- The reason field a confirmed record carries. -/
def fpReason (out : VerifyOut) : String :=
  match out with
  | .parsed c => c.reason
  | .parsedNone => ""
  | .raises _ => ""

theorem single_tc_eq (out : VerifyOut) (scn path : String) (tc : TestCase) :
    _verify_single_tc out scn path tc
      = if isConfirmedFP out then
          some ⟨scn, path, tc.id, tc.description, fpReason out⟩
        else none := by
  cases out with
  | parsed c =>
    cases hc : c.is_false_positive <;>
      simp [_verify_single_tc, isConfirmedFP, fpReason, hc]
  | parsedNone => rfl
  | raises m => rfl

theorem verifyAll_cons (outs : Nat → VerifyOut) (scn path : String) (i : Nat)
    (t : TestCase) (rest : List TestCase) :
    verifyAll outs scn path i (t :: rest)
      = (_verify_single_tc (outs i) scn path t).toList
          ++ verifyAll outs scn path (i + 1) rest := by
  cases h : _verify_single_tc (outs i) scn path t <;> simp [verifyAll, h]

theorem verifyAll_ids (outs : Nat → VerifyOut) (scn path : String) :
    ∀ (l : List TestCase) (i0 : Nat) (fp : FalsePositive),
      fp ∈ verifyAll outs scn path i0 l → fp.test_case_id ∈ l.map TestCase.id := by
  intro l
  induction l with
  | nil =>
    intro i0 fp hfp
    cases hfp
  | cons t rest ih =>
    intro i0 fp hfp
    rw [verifyAll_cons, List.mem_append] at hfp
    rcases hfp with h | h
    · rw [single_tc_eq] at h
      cases hconf : isConfirmedFP (outs i0) with
      | true =>
        simp only [hconf, if_true] at h
        have hfpeq : fp = ⟨scn, path, t.id, t.description, fpReason (outs i0)⟩ := by
          simpa using h
        rw [hfpeq]
        exact List.mem_cons_self _ _
      | false =>
        simp [hconf] at h
    · exact List.mem_cons_of_mem _ (ih (i0 + 1) fp h)

theorem verifyAll_countP (outs : Nat → VerifyOut) (scn path : String) :
    ∀ (l : List TestCase), (l.map TestCase.id).Nodup →
      ∀ (i0 j : Nat) (hj : j < l.length),
        (verifyAll outs scn path i0 l).countP
            (fun fp => fp.test_case_id == (l.get ⟨j, hj⟩).id)
          = if isConfirmedFP (outs (i0 + j)) then 1 else 0 := by
  intro l
  induction l with
  | nil =>
    intro _ i0 j hj
    cases hj
  | cons t rest ih =>
    intro hnd i0 j hj
    have hhead : t.id ∉ rest.map TestCase.id := by
      rw [List.map_cons] at hnd
      exact (List.nodup_cons.mp hnd).1
    have hndr : (rest.map TestCase.id).Nodup := by
      rw [List.map_cons] at hnd
      exact (List.nodup_cons.mp hnd).2
    cases j with
    | zero =>
      -- the head case: its own record counts, the tail contributes nothing
      have htail0 : (verifyAll outs scn path (i0 + 1) rest).countP
          (fun fp => fp.test_case_id == t.id) = 0 := by
        rw [List.countP_eq_zero]
        intro fp hfp hbeq
        apply hhead
        have hmem := verifyAll_ids outs scn path rest (i0 + 1) fp hfp
        rwa [show fp.test_case_id = t.id from by simpa using hbeq] at hmem
      simp only [List.get_eq_getElem, List.getElem_cons_zero]
      rw [verifyAll_cons, List.countP_append, single_tc_eq, htail0]
      cases hconf : isConfirmedFP (outs i0) with
      | true => simp [hconf]
      | false => simp [hconf]
    | succ j' =>
      have hj' : j' < rest.length := by
        simpa using hj
      have hkmem : (rest.get ⟨j', hj'⟩).id ∈ rest.map TestCase.id :=
        List.mem_map_of_mem _ (rest.get_mem _ _)
      have hne : (t.id == (rest.get ⟨j', hj'⟩).id) = false := by
        simp only [beq_eq_false_iff_ne, ne_eq]
        intro hc
        rw [hc] at hhead
        exact hhead hkmem
      have hrec := ih hndr (i0 + 1) j' hj'
      have hshift : i0 + 1 + j' = i0 + (j' + 1) := by omega
      rw [hshift] at hrec
      have hk : ((t :: rest).get ⟨j' + 1, hj⟩) = (rest.get ⟨j', hj'⟩) := rfl
      have hne' : ¬(t.id = (rest.get ⟨j', hj'⟩).id) := by
        simpa using hne
      simp only [List.get_eq_getElem] at hne'
      rw [hk, verifyAll_cons, List.countP_append, single_tc_eq, hrec]
      cases hconf : isConfirmedFP (outs i0) with
      | true => simp [hconf, hne']
      | false => simp [hconf]

theorem countP_id_eq_one_of_nodup (l : List TestCase) (e : TestCase)
    (hnd : (l.map TestCase.id).Nodup) (hmem : e ∈ l) :
    l.countP (fun x => x.id == e.id) = 1 := by
  have h1 : l.countP (fun x => x.id == e.id) = (l.map TestCase.id).count e.id := by
    rw [List.count, List.countP_map]
    rfl
  have h2 : (l.map TestCase.id).count e.id ≤ 1 :=
    List.nodup_iff_count_le_one.mp hnd e.id
  have h3 : 0 < (l.map TestCase.id).count e.id := by
    rw [List.count_pos_iff]
    exact List.mem_map_of_mem _ hmem
  omega

theorem tc_eta_present (x : TestCase) (h : x.present = true) :
    ({ x with present := true } : TestCase) = x := by
  cases x with
  | mk i d p =>
    simp only at h
    rw [h]

/-- C6 (amended). For a scenario whose coverage response carries pairwise
distinct test-case ids: the `j`-th case marked present ends with
`present = not (its own verification call confirmed a false positive)` in
the stored result — flipped to false exactly when its call returned
`is_false_positive = true` — and exactly one `FalsePositive` record (with
the call's reason) is emitted for it in that case and none otherwise. A
call that raises, or returns no parsed payload, confirms nothing: that
case keeps `present = true` and the other cases' verdicts, each driven by
its own call, are unaffected. Distinctness is required: with duplicate
ids the flip-by-id step couples the copies (see the counterexample). -/
theorem C6_fp_verification_amended :
    ∀ (outs : Nat → VerifyOut) (scn path : String) (tcs : List TestCase),
      (tcs.map TestCase.id).Nodup →
      ∀ (j : Nat) (hj : j < (tcs.filter (fun tc => tc.present)).length),
        ((analyzeMergeFPs outs scn path tcs).1.find?
            (fun e => e.id == ((tcs.filter (fun tc => tc.present)).get ⟨j, hj⟩).id)
          = some { (tcs.filter (fun tc => tc.present)).get ⟨j, hj⟩ with
                    present := !(isConfirmedFP (outs j)) })
        ∧ ((analyzeMergeFPs outs scn path tcs).2.countP
            (fun fp => fp.test_case_id
              == ((tcs.filter (fun tc => tc.present)).get ⟨j, hj⟩).id)
          = if isConfirmedFP (outs j) then 1 else 0) := by
  intro outs scn path tcs hnd j hj
  have hndp : ((tcs.filter (fun tc => tc.present)).map TestCase.id).Nodup :=
    List.Nodup.sublist (List.Sublist.map _ (List.filter_sublist tcs)) hnd
  have hcnt := verifyAll_countP outs scn path (tcs.filter (fun tc => tc.present)) hndp 0 j hj
  rw [Nat.zero_add] at hcnt
  have hsnd : (analyzeMergeFPs outs scn path tcs).2
      = verifyAll outs scn path 0 (tcs.filter (fun tc => tc.present)) := rfl
  refine ⟨?_, by rw [hsnd]; exact hcnt⟩
  have hmemp : (tcs.filter (fun tc => tc.present)).get ⟨j, hj⟩
      ∈ tcs.filter (fun tc => tc.present) := List.get_mem _ _ hj
  have hmem : (tcs.filter (fun tc => tc.present)).get ⟨j, hj⟩ ∈ tcs :=
    (List.mem_filter.mp hmemp).1
  have hpres : ((tcs.filter (fun tc => tc.present)).get ⟨j, hj⟩).present = true :=
    (List.mem_filter.mp hmemp).2
  have hone : tcs.countP
      (fun x => x.id == ((tcs.filter (fun tc => tc.present)).get ⟨j, hj⟩).id) = 1 :=
    countP_id_eq_one_of_nodup tcs _ hnd hmem
  have hfind : tcs.find?
      (fun x => x.id == ((tcs.filter (fun tc => tc.present)).get ⟨j, hj⟩).id)
      = some ((tcs.filter (fun tc => tc.present)).get ⟨j, hj⟩) :=
    find?_eq_of_countP_one _ _ _ hmem (by simp) hone
  have hfst : (analyzeMergeFPs outs scn path tcs).1
      = (tcs.map (fun tc =>
          if (verifyAll outs scn path 0 (tcs.filter (fun tc => tc.present))).any
              (fun fp => fp.test_case_id == tc.id)
          then { tc with present := false } else tc)) := rfl
  rw [hfst]
  rw [find?_map_tc _ _ _ (fun a => by
    cases hfa : (verifyAll outs scn path 0 (tcs.filter (fun tc => tc.present))).any
        (fun fp => fp.test_case_id == a.id) <;> simp [hfa])]
  rw [hfind]
  simp only [Option.map_some']
  have hany : (verifyAll outs scn path 0 (tcs.filter (fun tc => tc.present))).any
      (fun fp => fp.test_case_id
        == ((tcs.filter (fun tc => tc.present)).get ⟨j, hj⟩).id)
      = isConfirmedFP (outs j) := by
    cases hconf : isConfirmedFP (outs j) with
    | true =>
      rw [hconf, if_pos rfl] at hcnt
      have hpos : 0 < (verifyAll outs scn path 0 (tcs.filter (fun tc => tc.present))).countP
          (fun fp => fp.test_case_id
            == ((tcs.filter (fun tc => tc.present)).get ⟨j, hj⟩).id) := by
        omega
      rcases List.countP_pos_iff.mp hpos with ⟨fp, hfpmem, hfpp⟩
      exact List.any_eq_true.mpr ⟨fp, hfpmem, hfpp⟩
    | false =>
      rw [hconf, if_neg (by simp)] at hcnt
      rw [List.countP_eq_zero] at hcnt
      rw [List.any_eq_false]
      exact hcnt
  rw [hany]
  cases hconf : isConfirmedFP (outs j) with
  | true => rfl
  | false =>
    simp only [Bool.not_false, if_neg (by simp : ¬(false = true))]
    rw [tc_eta_present _ hpres]

/-- Coverage output with a duplicated id, both copies marked present. -/
def c6CexTcs : List TestCase :=
  [⟨"TC-1", "a", true⟩, ⟨"TC-1", "b", true⟩]

/-- Verification oracle for the C6 counterexample: the first call confirms
a false positive, the second returns `is_false_positive = false`. -/
def c6CexOuts (i : Nat) : VerifyOut :=
  if i == 0 then .parsed ⟨true, "no outcome check"⟩ else .parsed ⟨false, ""⟩

/-- C6 counterexample. The second present case's own verification call
returned `is_false_positive = false`, yet its stored `present` is false:
the flip is keyed by test-case id (`fp_ids` is a set of ids), so a
confirmed false positive on another case with the same id flips it too.
The claimed equivalence "present flipped iff its own call confirmed"
fails when the coverage response repeats an id. -/
theorem C6_fp_verification_counterexample :
    (analyzeMergeFPs c6CexOuts "s" "p" c6CexTcs).1
      = [⟨"TC-1", "a", false⟩, ⟨"TC-1", "b", false⟩]
    ∧ isConfirmedFP (c6CexOuts 1) = false :=
  ⟨rfl, rfl⟩

/-- Coverage output with distinct ids for the C6 witness. -/
def c6WitTcs : List TestCase :=
  [⟨"TC-1", "a", true⟩, ⟨"TC-2", "b", false⟩, ⟨"TC-3", "c", true⟩]

/-- Verification oracle for the C6 witness: TC-1's call confirms a false
positive; TC-3's call raises. -/
def c6WitOuts (i : Nat) : VerifyOut :=
  if i == 0 then .parsed ⟨true, "mere mention"⟩ else .raises "503"

/-- Witness for C6 (amended): with distinct ids, the case whose call
raised keeps `present = true` and gets no record (unaffected by TC-1's
confirmed false positive). -/
theorem C6_fp_verification_amended_witness :
    ((analyzeMergeFPs c6WitOuts "s" "p" c6WitTcs).1.find?
        (fun e => e.id == ((c6WitTcs.filter (fun tc => tc.present)).get
          ⟨1, by decide⟩).id)
      = some { (c6WitTcs.filter (fun tc => tc.present)).get ⟨1, by decide⟩ with
                present := !(isConfirmedFP (c6WitOuts 1)) })
    ∧ ((analyzeMergeFPs c6WitOuts "s" "p" c6WitTcs).2.countP
        (fun fp => fp.test_case_id == ((c6WitTcs.filter (fun tc => tc.present)).get
          ⟨1, by decide⟩).id)
      = if isConfirmedFP (c6WitOuts 1) then 1 else 0) :=
  C6_fp_verification_amended c6WitOuts "s" "p" c6WitTcs (by decide) 1 (by decide)

/-! ## Test-case generation node (nodes.py:198-239 and 584-588)

`generate_test_cases` short-circuits on existing errors, issues one
retry-wrapped structured call, and checks `if not parsed` on the value of
`_get_parsed(response)` — which is None when the response has no choices,
no message, or no parsed payload. `TestCaseList` (from `agent/models.py`,
which is not in the source tree; shape modelled from the spec and the
graph.py analogue) is a Pydantic model, and a Pydantic model instance is
always truthy, so `if not parsed` fires only on None — not on a parsed
list with zero test cases. -/

/-- `TestCaseList` structured output: `{test_cases}`. -/
structure TestCaseList where
  test_cases : List GenTC
deriving Repr, DecidableEq

/-- The generation call as the node sees it: a response whose parsed
payload `_get_parsed` extracts (possibly None), or a raised exception. -/
inductive GenCallOutcome where
  | resp (parsed : Option TestCaseList)
  | raises (msg : String)
deriving Repr, DecidableEq

/-- The delta dict returned by the node. -/
inductive GenDelta where
  | empty
  | errorsDelta (msgs : List String)
  | tcsDelta (generated : List String)
deriving Repr, DecidableEq

/-- nodes.py `generate_test_cases`, as a function of the fields it reads. -/
def generate_test_cases_n (errors : List String) (call : GenCallOutcome) : GenDelta :=
  if errors ≠ [] then .empty
  else
    match call with
    | .raises e => .errorsDelta ["Test case generation error: " ++ e]
    | .resp none => .errorsDelta ["No parsed response from LLM"]
    | .resp (some parsed) =>
        .tcsDelta (parsed.test_cases.map (fun tc => tc.id ++ ": " ++ tc.description))

/-- C8 counterexample. A successfully parsed response with zero test
cases is stored as an empty `generated_test_cases` list and no error is
recorded — the "No parsed response" error fires only when the parsed
payload is absent, not when it is an empty list. -/
theorem C8_zero_cases_counterexample :
    generate_test_cases_n [] (.resp (some ⟨[]⟩)) = .tcsDelta []
    ∧ generate_test_cases_n [] (.resp (some ⟨[]⟩))
        ≠ .errorsDelta ["No parsed response from LLM"] :=
  ⟨rfl, by decide⟩

/-- C8 (amended). With no prior errors: a response without a parsed
payload is treated as the error "No parsed response from LLM"; a response
with a parsed payload is stored as the rendered `generated_test_cases`
with no recorded error, even when it contains zero test cases. -/
theorem C8_zero_cases_amended :
    (∀ (errors : List String) , errors = [] →
        generate_test_cases_n errors (.resp none)
          = .errorsDelta ["No parsed response from LLM"])
    ∧ (∀ (errors : List String) (parsed : TestCaseList), errors = [] →
        generate_test_cases_n errors (.resp (some parsed))
          = .tcsDelta (parsed.test_cases.map (fun tc => tc.id ++ ": " ++ tc.description))) := by
  constructor
  · intro errors h
    rw [h]
    rfl
  · intro errors parsed h
    rw [h]
    rfl

/-- Witness for C8 (amended) at concrete inputs, including the zero-case
response stored without an error. -/
theorem C8_zero_cases_amended_witness :
    generate_test_cases_n [] (.resp none) = .errorsDelta ["No parsed response from LLM"]
    ∧ generate_test_cases_n [] (.resp (some ⟨[⟨"TC-001", "nominal"⟩]⟩))
        = .tcsDelta ["TC-001: nominal"]
    ∧ generate_test_cases_n [] (.resp (some ⟨[]⟩)) = .tcsDelta [] :=
  ⟨C8_zero_cases_amended.1 [] rfl,
   C8_zero_cases_amended.2 [] ⟨[⟨"TC-001", "nominal"⟩]⟩ rfl,
   C8_zero_cases_amended.2 [] ⟨[]⟩ rfl⟩

/-! ## Requirement extraction with persistent cache (regex_extract.py)

`get_requirement(req_id)` hashes the SRS PDF, clears the whole diskcache
and stores the new hash when the stored `"_pdf_hash"` differs, then
serves `req_id` from the cache or recomputes it from the document text
with `_extract_requirement` (regex `\b(SKYRADAR-[A-Z]+-\d+)\b` over the
joined page text; ownership runs from a match to the next match or the
end; lines stripped, blank lines dropped).

The PDF is modelled as its joined page text plus an opaque content hash;
the diskcache as an association list (first entry wins, so `set` is a
prepend). Python string indices are code points: the scanner works on
`List Char` with explicit positions. The scanner carries fuel equal to
the text length, which dominates its recursion depth (every step
consumes at least one character), keeping it structurally recursive. -/

/-- Word characters for the regex boundary `\b`. -/
def isWordChar (c : Char) : Bool :=
  c.isAlphanum || c == '_'

/-- Match `SKYRADAR-[A-Z]+-\d+\b` at the head of `cs` (the leading `\b`
is the caller's concern); returns the matched id text. -/
def tryMatchReq (cs : List Char) : Option (List Char) :=
  let lit := "SKYRADAR-".toList
  if lit.isPrefixOf cs then
    let rest := cs.drop lit.length
    let ups := rest.takeWhile (fun c => c.isUpper)
    if ups.isEmpty then none
    else
      match rest.drop ups.length with
      | '-' :: rest2 =>
        let digs := rest2.takeWhile (fun c => c.isDigit)
        if digs.isEmpty then none
        else
          match rest2.drop digs.length with
          | [] => some (lit ++ ups ++ '-' :: digs)
          | c :: _ =>
            if isWordChar c then none else some (lit ++ ups ++ '-' :: digs)
      | _ => none
  else none

/-- `REQ_PATTERN.finditer`: left-to-right scan with non-overlapping
matches, recorded as (start position, matched id). `prevWord` tracks the
word-ness of the previous character for the `\b` check. -/
def findAllReqsF : Nat → List Char → Nat → Bool → List (Nat × List Char)
  | 0, _, _, _ => []
  | _, [], _, _ => []
  | fuel + 1, c :: rest, pos, prevWord =>
    if prevWord then findAllReqsF fuel rest (pos + 1) (isWordChar c)
    else
      match tryMatchReq (c :: rest) with
      | some m =>
          (pos, m) :: findAllReqsF fuel ((c :: rest).drop m.length) (pos + m.length) true
      | none => findAllReqsF fuel rest (pos + 1) (isWordChar c)

def findAllReqs (cs : List Char) : List (Nat × List Char) :=
  findAllReqsF cs.length cs 0 false

/-- `line.strip()` on code points. -/
def stripChars (l : List Char) : List Char :=
  ((l.dropWhile (fun c => c.isWhitespace)).reverse.dropWhile
    (fun c => c.isWhitespace)).reverse

/-- The cleanup in `_extract_requirement`: split on newlines, strip each
line, drop blank lines, re-join with newlines. -/
def cleanupLines (raw : List Char) : String :=
  let lines := (splitOnChar '\n' raw).map stripChars
  String.mk (List.intercalate ['\n'] (lines.filter (fun l => ¬l.isEmpty)))

/-- The `for i, m in enumerate(matches)` loop: the first match equal to
`req_id` owns the text up to the next match's start (or document end). -/
def extractLoop (req_id text : List Char) : List (Nat × List Char) → Option String
  | [] => none
  | (start, m) :: restMatches =>
    if m = req_id then
      let next_pos :=
        match restMatches with
        | [] => text.length
        | (s2, _) :: _ => s2
      some (cleanupLines ((text.drop start).take (next_pos - start)))
    else extractLoop req_id text restMatches

/-- `_extract_requirement(req_id, srs_text)`. -/
def _extract_requirement (req_id : String) (srs_text : String) : Option String :=
  let ms := findAllReqs srs_text.toList
  if ms.isEmpty then none
  else extractLoop req_id.toList srs_text.toList ms

/-- The diskcache: an association list where the first binding wins. -/
structure CacheState where
  entries : List (String × String)
deriving Repr, DecidableEq

def cacheGet (c : CacheState) (k : String) : Option String :=
  (c.entries.find? (fun kv => kv.fst == k)).map (fun kv => kv.snd)

def cacheSet (c : CacheState) (k v : String) : CacheState :=
  ⟨(k, v) :: c.entries⟩

def cacheClear : CacheState :=
  ⟨[]⟩

/-- The SRS PDF as the pipeline observes it: its content hash and the
joined page text (PDF parsing is an external collaborator). -/
structure Doc where
  hash : String
  text : String
deriving Repr, DecidableEq

/-- `get_requirement(req_id)`: wholesale invalidation on hash mismatch,
then cache hit or recomputation (caching the result only when found). -/
def get_requirement (d : Doc) (c : CacheState) (req_id : String) :
    Option String × CacheState :=
  let current_hash := d.hash
  let c1 :=
    if cacheGet c "_pdf_hash" = some current_hash then c
    else cacheSet cacheClear "_pdf_hash" current_hash
  match cacheGet c1 req_id with
  | some v => (some v, c1)
  | none =>
    match _extract_requirement req_id d.text with
    | some r => (some r, cacheSet c1 req_id r)
    | none => (none, c1)

/-- C7. If the document is mutated so that its hash no longer matches the
stored `"_pdf_hash"`, the next `get_requirement(R)` does not serve the
cached entry for `R`: the whole cache is cleared (every key other than
the hash sentinel and possibly the re-inserted `R` reads as absent
afterwards) and `R` is recomputed from the current document text. -/
theorem C7_cache_invalidation :
    ∀ (d : Doc) (c : CacheState) (R v : String),
      R ≠ "_pdf_hash" →
      cacheGet c R = some v →
      cacheGet c "_pdf_hash" ≠ some d.hash →
      (get_requirement d c R).fst = _extract_requirement R d.text
      ∧ cacheGet (get_requirement d c R).snd "_pdf_hash" = some d.hash
      ∧ ∀ k, k ≠ "_pdf_hash" → k ≠ R →
          cacheGet (get_requirement d c R).snd k = none := by
  intro d c R v hR _hcached hmut
  have hc1get : cacheGet (cacheSet cacheClear "_pdf_hash" d.hash) R = none := by
    simp only [cacheSet, cacheClear, cacheGet, List.find?]
    rw [show (("_pdf_hash", d.hash).fst == R) = false from by simpa using (Ne.symm hR)]
    rfl
  simp only [get_requirement, if_neg hmut]
  rw [hc1get]
  cases hex : _extract_requirement R d.text with
  | none =>
    refine ⟨rfl, ?_, ?_⟩
    · rfl
    · intro k hk1 _hk2
      simp only [cacheSet, cacheClear, cacheGet, List.find?]
      rw [show (("_pdf_hash", d.hash).fst == k) = false from by simpa using (Ne.symm hk1)]
      rfl
  | some r =>
    refine ⟨rfl, ?_, ?_⟩
    · simp only [cacheSet, cacheClear, cacheGet, List.find?]
      rw [show ((R, r).fst == "_pdf_hash") = false from by simpa using hR]
      rfl
    · intro k hk1 hk2
      simp only [cacheSet, cacheClear, cacheGet, List.find?]
      rw [show ((R, r).fst == k) = false from by simpa using (Ne.symm hk2)]
      rw [show (("_pdf_hash", d.hash).fst == k) = false from by simpa using (Ne.symm hk1)]
      rfl

/-- Document and cache for the C7 witness: the cache holds a stale text
for `SKYRADAR-ARR-001` under the old document hash. -/
def c7Doc : Doc :=
  ⟨"newhash", "intro text\nSKYRADAR-ARR-001 updated alpha\nSKYRADAR-ARR-002 beta"⟩

def c7Cache : CacheState :=
  ⟨[("_pdf_hash", "oldhash"), ("SKYRADAR-ARR-001", "stale alpha")]⟩

/-- Witness for C7 at concrete inputs: after the mutation the result is
the recomputation from the current text, and an unrelated cached key is
gone. -/
theorem C7_cache_invalidation_witness :
    (get_requirement c7Doc c7Cache "SKYRADAR-ARR-001").fst
      = _extract_requirement "SKYRADAR-ARR-001" c7Doc.text
    ∧ cacheGet (get_requirement c7Doc c7Cache "SKYRADAR-ARR-001").snd
        "SKYRADAR-ARR-777" = none :=
  ⟨(C7_cache_invalidation c7Doc c7Cache "SKYRADAR-ARR-001" "stale alpha"
      (by decide) (by decide) (by decide)).1,
   (C7_cache_invalidation c7Doc c7Cache "SKYRADAR-ARR-001" "stale alpha"
      (by decide) (by decide) (by decide)).2.2 "SKYRADAR-ARR-777"
      (by decide) (by decide)⟩

/-- Sanity check that the concrete extraction evaluates: requirement
ARR-001 owns the text from its id up to the next id. -/
theorem extract_requirement_eval_check :
    _extract_requirement "SKYRADAR-ARR-001" c7Doc.text
      = some "SKYRADAR-ARR-001 updated alpha" := by
  decide
